import Mathlib

/-!
Shallow embedding of `processor/processor.go` from rbradford/scc.

The file models the package-level flag state, `ProcessConstants`,
`processFlags`, `loadDatabase` and the setup portion of `Process`.
Go maps carry a nondeterministic iteration order, so a
`map[string]Language` being ranged over is embedded as a list of
name/definition pairs in some iteration order; map *contents* are
embedded as functions `String → Option α` (a Go map lookup).  The `Trie`
type and its `Insert`/`InsertClose` methods live outside
`processor.go`; every claim treated here depends only on which
insertions `ProcessConstants` performs, so a trie is represented by the
sequence of insertions made into it.  Go `panic` is represented by
`Except.error`.
-/

namespace Scc

/-- Tag constants (`T_COMPLEXITY`, ...) are declared outside
`processor.go`; only their distinctness matters here, so representative
distinct values are used. -/
def T_COMPLEXITY : Nat := 1

/-- Tag for single-line comment tokens. -/
def T_SLCOMMENT : Nat := 2

/-- Tag for multi-line comment tokens. -/
def T_MLCOMMENT : Nat := 3

/-- Tag for string (quote) tokens. -/
def T_STRING : Nat := 4

/-- One insertion into a `Trie`: either a plain `Insert` of a tagged
token, or an `InsertClose` of a tagged open/close token pair.  Tokens
are byte strings, embedded as lists of byte values. -/
inductive TrieEntry where
  | ins (tag : Nat) (token : List Nat) : TrieEntry
  | insClose (tag : Nat) (openTok : List Nat) (closeTok : List Nat) : TrieEntry
deriving DecidableEq, Repr

/-- A trie, represented by the sequence of insertions made into it
(the matching structure itself is defined outside `processor.go` and no
claim below depends on it). -/
abbrev Trie := List TrieEntry

/-- `Trie.Insert(tag, token)`. -/
def Trie.insert (t : Trie) (tag : Nat) (token : List Nat) : Trie :=
  t ++ [TrieEntry.ins tag token]

/-- `Trie.InsertClose(tag, open, close)`. -/
def Trie.insertClose (t : Trie) (tag : Nat) (openTok closeTok : List Nat) : Trie :=
  t ++ [TrieEntry.insClose tag openTok closeTok]

/-- A language definition record, as unmarshalled from the embedded
JSON table.  Go's `MultiLine` and `Quotes` are lists of two-element
arrays (open token, close token), embedded as pairs. -/
structure Language where
  Extensions : List String
  ComplexityChecks : List (List Nat)
  LineComment : List (List Nat)
  MultiLine : List (List Nat × List Nat)
  Quotes : List (List Nat × List Nat)
  NestedMultiLine : Bool
deriving DecidableEq, Repr

/-- `v[0]`: the first byte of a token.  Go panics on an empty string;
the default `0` is only reached for empty tokens, which the embedded
table never contains. -/
def firstByte (t : List Nat) : Nat := t.headD 0

/-- The compiled per-language feature record built by
`ProcessConstants` (struct `LanguageFeature`). -/
structure LanguageFeature where
  Complexity : Trie
  MultiLineComments : Trie
  SingleLineComments : Trie
  Strings : Trie
  Tokens : Trie
  Nested : Bool
  ComplexityCheckMask : Nat
  MultiLineCommentMask : Nat
  SingleLineCommentMask : Nat
  StringCheckMask : Nat
  ProcessMask : Nat
deriving DecidableEq, Repr

/-- The body of the per-language loop of `ProcessConstants`
(processor.go lines 72-129), building one `LanguageFeature` from one
`Language`.  The Go loop interleaves the mask, the category trie and
the combined `tokenTrie` updates in a single pass over each token
list; since each accumulator is updated independently, each is written
here as its own fold over the same list in the same order. -/
def buildFeature (Complexity : Bool) (value : Language) : LanguageFeature :=
  let complexityTrie : Trie := []
  let slCommentTrie : Trie := []
  let mlCommentTrie : Trie := []
  let stringTrie : Trie := []
  let tokenTrie : Trie := []
  -- lines 85-91: range over value.ComplexityChecks
  let complexityMask : Nat := value.ComplexityChecks.foldl (fun m v => m ||| firstByte v) 0
  let complexityTrie := value.ComplexityChecks.foldl
    (fun t v => t.insert T_COMPLEXITY v) complexityTrie
  let tokenTrie := value.ComplexityChecks.foldl
    (fun t v => if !Complexity then t.insert T_COMPLEXITY v else t) tokenTrie
  -- lines 92-94: if !Complexity { processMask |= complexityMask }
  let processMask : Nat := if !Complexity then 0 ||| complexityMask else 0
  -- lines 96-101: range over value.LineComment
  let singleLineCommentMask : Nat := value.LineComment.foldl (fun m v => m ||| firstByte v) 0
  let slCommentTrie := value.LineComment.foldl
    (fun t v => t.insert T_SLCOMMENT v) slCommentTrie
  let tokenTrie := value.LineComment.foldl
    (fun t v => t.insert T_SLCOMMENT v) tokenTrie
  let processMask := processMask ||| singleLineCommentMask
  -- lines 103-108: range over value.MultiLine
  let multiLineCommentMask : Nat := value.MultiLine.foldl (fun m v => m ||| firstByte v.1) 0
  let mlCommentTrie := value.MultiLine.foldl
    (fun t v => t.insertClose T_MLCOMMENT v.1 v.2) mlCommentTrie
  let tokenTrie := value.MultiLine.foldl
    (fun t v => t.insertClose T_MLCOMMENT v.1 v.2) tokenTrie
  let processMask := processMask ||| multiLineCommentMask
  -- lines 110-115: range over value.Quotes
  let stringMask : Nat := value.Quotes.foldl (fun m v => m ||| firstByte v.1) 0
  let stringTrie := value.Quotes.foldl
    (fun t v => t.insertClose T_STRING v.1 v.2) stringTrie
  let tokenTrie := value.Quotes.foldl
    (fun t v => t.insertClose T_STRING v.1 v.2) tokenTrie
  let processMask := processMask ||| stringMask
  -- lines 117-129: LanguageFeatures[name] = LanguageFeature{...}
  { Complexity := complexityTrie
    MultiLineComments := mlCommentTrie
    SingleLineComments := slCommentTrie
    Strings := stringTrie
    Tokens := tokenTrie
    Nested := value.NestedMultiLine
    ComplexityCheckMask := complexityMask
    MultiLineCommentMask := multiLineCommentMask
    SingleLineCommentMask := singleLineCommentMask
    StringCheckMask := stringMask
    ProcessMask := processMask }

/-- `ExtensionToLanguage[ext] = name` for one assignment. -/
def insertExt (m : String → Option String) (name ext : String) : String → Option String :=
  fun e => if e = ext then some name else m e

/-- The first loop of `ProcessConstants` (lines 61-65): for each
language in iteration order, for each of its extensions, assign
`ExtensionToLanguage[ext] = name`. -/
def buildExtMap : List (String × Language) → (String → Option String) → (String → Option String)
  | [], m => m
  | (name, value) :: rest, m =>
      buildExtMap rest (value.Extensions.foldl (fun m ext => insertExt m name ext) m)

/-- The second loop of `ProcessConstants` (lines 72-130): for each
language in iteration order, `LanguageFeatures[name] = buildFeature ...`. -/
def buildFeatures (Complexity : Bool) :
    List (String × Language) → (String → Option LanguageFeature) → (String → Option LanguageFeature)
  | [], m => m
  | (name, value) :: rest, m =>
      buildFeatures Complexity rest
        (fun n => if n = name then some (buildFeature Complexity value) else m n)

/-- The package-level state of `processor.go` (lines 15-47): the CLI
flags, the queue/worker configuration, the argument paths, and the two
tables filled by `ProcessConstants`. -/
structure Flags where
  Files : Bool
  Languages : Bool
  Verbose : Bool
  Debug : Bool
  Trace : Bool
  Duplicates : Bool
  Complexity : Bool
  More : Bool
  Cocomo : Bool
  DisableCheckBinary : Bool
  SortBy : String
  Exclude : String
  Format : String
  FileOutput : String
  PathBlacklist : List String
  FileListQueueSize : Nat
  FileReadJobQueueSize : Nat
  FileReadJobWorkers : Nat
  FileReadContentJobQueueSize : Nat
  FileProcessJobQueueSize : Nat
  FileProcessJobWorkers : Nat
  FileSummaryJobQueueSize : Nat
  WhiteListExtensions : List String
  AverageWage : Int
  GcFileCount : Nat
  gcPercent : Int
  DirFilePaths : List String
  ExtensionToLanguage : String → Option String
  LanguageFeatures : String → Option LanguageFeature

/-- `ProcessConstants` as a state transformer (lines 57-135): it fills
`ExtensionToLanguage` and `LanguageFeatures` from the database, reading
the `Complexity` flag, and touches nothing else. -/
def processConstantsState (s : Flags) (database : List (String × Language)) : Flags :=
  { s with
    ExtensionToLanguage := buildExtMap database s.ExtensionToLanguage
    LanguageFeatures := buildFeatures s.Complexity database s.LanguageFeatures }

/-- `processFlags` (lines 137-156): clears `Complexity` when both
`More` and `Complexity` are set; the rest of the body only prints
debug output. -/
def processFlags (s : Flags) : Flags :=
  if s.More && s.Complexity then { s with Complexity := false } else s

/-- `loadDatabase` (lines 158-176): base64-decode the embedded
`languages` constant, then JSON-unmarshal it.  Both codecs and the
payload live outside `processor.go`, so they are parameters; a failed
decode or unmarshal is a Go `panic`, represented by `Except.error`. -/
def loadDatabase (decodedPayload : Except String (List Nat))
    (unmarshal : List Nat → Except String (List (String × Language))) :
    Except String (List (String × Language)) :=
  match decodedPayload with
  | Except.error e => Except.error e
  | Except.ok d => unmarshal d

/-- Observable setup actions of `Process` (lines 195-233), in program
order: channel creation with its capacity, the start of the directory
walker goroutine with its root path, and the final report. -/
inductive Event where
  | languagesListed : Event
  | queueCreated (name : String) (capacity : Nat) : Event
  | walkerStarted (root : String) : Event
  | reportProduced : Event
deriving DecidableEq, Repr

/-- `Process` (lines 195-233) as a trace of its observable setup
actions.  `Languages` short-circuits to `printLanguages` (which itself
loads the database, line 179); otherwise `ProcessConstants` then
`processFlags` run, an empty `DirFilePaths` defaults to `["."]`,
`SortBy` is lower-cased, the three bounded channels are created with
their configured capacities (lines 217-219), the walker goroutine is
started on `DirFilePaths[0]` (line 221), and a report is produced.  A
database load failure is a panic and yields no events at all. -/
def processTrace (s0 : Flags) (database : Except String (List (String × Language))) :
    Except String (List Event) :=
  if s0.Languages then
    match database with
    | Except.error e => Except.error e
    | Except.ok _ => Except.ok [Event.languagesListed]
  else
    match database with
    | Except.error e => Except.error e
    | Except.ok db =>
        let s1 := processFlags (processConstantsState s0 db)
        let s2 := if s1.DirFilePaths.isEmpty
          then { s1 with DirFilePaths := s1.DirFilePaths ++ ["."] } else s1
        let s3 := { s2 with SortBy := s2.SortBy.toLower }
        Except.ok
          [Event.queueCreated "fileListQueue" s3.FileListQueueSize,
           Event.queueCreated "fileReadContentJobQueue" s3.FileReadContentJobQueueSize,
           Event.queueCreated "fileSummaryJobQueue" s3.FileSummaryJobQueueSize,
           Event.walkerStarted (s3.DirFilePaths.headD ""),
           Event.reportProduced]

/-- The four queue-capacity knobs named after the walk, load, process
and summarize stages (the reading of "four independent queue
capacities" in the specification); `FileReadContentJobQueueSize` is a
fifth, separate knob. -/
def fourStageKnobs (s : Flags) : List Nat :=
  [s.FileListQueueSize, s.FileReadJobQueueSize, s.FileProcessJobQueueSize,
   s.FileSummaryJobQueueSize]

/-- The empty `ExtensionToLanguage` table (its package initializer). -/
def emptyStrMap : String → Option String := fun _ => none

/-- The empty `LanguageFeatures` table (its package initializer). -/
def emptyFeatMap : String → Option LanguageFeature := fun _ => none

/-- A sample flag state used to instantiate theorems.  The boolean
flags and strings carry their Go zero-value defaults; the queue and
worker sizes default to multiples of `runtime.NumCPU()` in Go and are
given distinct representative values here. -/
def defFlags : Flags :=
  { Files := false, Languages := false, Verbose := false, Debug := false,
    Trace := false, Duplicates := false, Complexity := false, More := false,
    Cocomo := false, DisableCheckBinary := false,
    SortBy := "", Exclude := "", Format := "", FileOutput := "",
    PathBlacklist := [],
    FileListQueueSize := 1, FileReadJobQueueSize := 2, FileReadJobWorkers := 3,
    FileReadContentJobQueueSize := 4, FileProcessJobQueueSize := 5,
    FileProcessJobWorkers := 6, FileSummaryJobQueueSize := 7,
    WhiteListExtensions := [], AverageWage := 56286, GcFileCount := 10000,
    gcPercent := -1, DirFilePaths := ["p"],
    ExtensionToLanguage := emptyStrMap, LanguageFeatures := emptyFeatMap }

/-- A sample language with a single complexity token `"i"` (byte 105)
and no comment or quote tokens. -/
def exLang1 : Language :=
  { Extensions := ["x"], ComplexityChecks := [[105]], LineComment := [],
    MultiLine := [], Quotes := [], NestedMultiLine := false }

/-- A degenerate language whose single complexity token starts with a
NUL byte. -/
def exLang0 : Language :=
  { Extensions := [], ComplexityChecks := [[0]], LineComment := [],
    MultiLine := [], Quotes := [], NestedMultiLine := false }

/-- A language declaring only the extension `"x"`. -/
def exLangX : Language :=
  { Extensions := ["x"], ComplexityChecks := [], LineComment := [],
    MultiLine := [], Quotes := [], NestedMultiLine := false }

/-- A language declaring only the extension `"go"`. -/
def exLangGo : Language :=
  { Extensions := ["go"], ComplexityChecks := [], LineComment := [],
    MultiLine := [], Quotes := [], NestedMultiLine := false }

/-- A language declaring only the extension `"rs"`. -/
def exLangRs : Language :=
  { Extensions := ["rs"], ComplexityChecks := [], LineComment := [],
    MultiLine := [], Quotes := [], NestedMultiLine := false }

/-! ## Helper lemmas -/

theorem foldl_insert_eq (tag : Nat) (l : List (List Nat)) (t : Trie) :
    l.foldl (fun t v => t.insert tag v) t = t ++ l.map (fun v => TrieEntry.ins tag v) := by
  induction l generalizing t with
  | nil => simp
  | cons x xs ih =>
    rw [List.foldl_cons, ih]
    simp [Trie.insert]

theorem foldl_id {α : Type} {β : Type} (l : List β) (a : α) :
    l.foldl (fun a _ => a) a = a := by
  induction l generalizing a with
  | nil => rfl
  | cons x xs ih => exact ih a

theorem foldl_insertClose_eq (tag : Nat) (l : List (List Nat × List Nat)) (t : Trie) :
    l.foldl (fun t v => t.insertClose tag v.1 v.2) t =
      t ++ l.map (fun v => TrieEntry.insClose tag v.1 v.2) := by
  induction l generalizing t with
  | nil => simp
  | cons x xs ih =>
    rw [List.foldl_cons, ih]
    simp [Trie.insertClose]

/-- The dedicated complexity trie always receives every complexity token. -/
theorem Complexity_buildFeature (C : Bool) (v : Language) :
    (buildFeature C v).Complexity =
      v.ComplexityChecks.map (fun tok => TrieEntry.ins T_COMPLEXITY tok) := by
  simp [buildFeature, foldl_insert_eq]

theorem foldl_or_testBit {α : Type} (g : α → Nat) (l : List α) (a : Nat) (i : Nat) :
    (l.foldl (fun m x => m ||| g x) a).testBit i =
      (a.testBit i || l.any (fun x => (g x).testBit i)) := by
  induction l generalizing a with
  | nil => simp
  | cons x xs ih => simp [ih, Nat.testBit_or, Bool.or_assoc]

theorem mem_foldl_or {α : Type} (g : α → Nat) (l : List α) (a : Nat) (x : α) (hx : x ∈ l) :
    g x &&& l.foldl (fun m y => m ||| g y) a = g x := by
  apply Nat.eq_of_testBit_eq
  intro i
  rw [Nat.testBit_and, foldl_or_testBit]
  cases h : (g x).testBit i with
  | false => simp
  | true =>
    have hany : l.any (fun y => (g y).testBit i) = true := List.any_eq_true.mpr ⟨x, hx, h⟩
    simp [hany]

theorem ComplexityCheckMask_eq (C : Bool) (v : Language) :
    (buildFeature C v).ComplexityCheckMask =
      v.ComplexityChecks.foldl (fun m tok => m ||| firstByte tok) 0 := by
  simp [buildFeature]

theorem SingleLineCommentMask_eq (C : Bool) (v : Language) :
    (buildFeature C v).SingleLineCommentMask =
      v.LineComment.foldl (fun m tok => m ||| firstByte tok) 0 := by
  simp [buildFeature]

theorem MultiLineCommentMask_eq (C : Bool) (v : Language) :
    (buildFeature C v).MultiLineCommentMask =
      v.MultiLine.foldl (fun m p => m ||| firstByte p.1) 0 := by
  simp [buildFeature]

theorem StringCheckMask_eq (C : Bool) (v : Language) :
    (buildFeature C v).StringCheckMask =
      v.Quotes.foldl (fun m p => m ||| firstByte p.1) 0 := by
  simp [buildFeature]

/-- Record-update projections of `processConstantsState`. -/
@[simp] theorem processConstantsState_More (s : Flags) (db : List (String × Language)) :
    (processConstantsState s db).More = s.More := rfl

@[simp] theorem processConstantsState_Complexity (s : Flags) (db : List (String × Language)) :
    (processConstantsState s db).Complexity = s.Complexity := rfl

@[simp] theorem processConstantsState_Languages (s : Flags) (db : List (String × Language)) :
    (processConstantsState s db).Languages = s.Languages := rfl

@[simp] theorem processConstantsState_SortBy (s : Flags) (db : List (String × Language)) :
    (processConstantsState s db).SortBy = s.SortBy := rfl

@[simp] theorem processConstantsState_DirFilePaths (s : Flags) (db : List (String × Language)) :
    (processConstantsState s db).DirFilePaths = s.DirFilePaths := rfl

@[simp] theorem processConstantsState_FileListQueueSize (s : Flags) (db : List (String × Language)) :
    (processConstantsState s db).FileListQueueSize = s.FileListQueueSize := rfl

@[simp] theorem processConstantsState_FileReadContentJobQueueSize (s : Flags)
    (db : List (String × Language)) :
    (processConstantsState s db).FileReadContentJobQueueSize = s.FileReadContentJobQueueSize := rfl

@[simp] theorem processConstantsState_FileSummaryJobQueueSize (s : Flags)
    (db : List (String × Language)) :
    (processConstantsState s db).FileSummaryJobQueueSize = s.FileSummaryJobQueueSize := rfl

@[simp] theorem processConstantsState_LanguageFeatures (s : Flags) (db : List (String × Language)) :
    (processConstantsState s db).LanguageFeatures =
      buildFeatures s.Complexity db s.LanguageFeatures := rfl

@[simp] theorem processConstantsState_ExtensionToLanguage (s : Flags)
    (db : List (String × Language)) :
    (processConstantsState s db).ExtensionToLanguage =
      buildExtMap db s.ExtensionToLanguage := rfl

/-- `processFlags` leaves every field except `Complexity` unchanged;
projection lemmas for the fields `Process` later reads. -/
@[simp] theorem processFlags_Languages (s : Flags) :
    (processFlags s).Languages = s.Languages := by
  unfold processFlags; split <;> rfl

@[simp] theorem processFlags_SortBy (s : Flags) :
    (processFlags s).SortBy = s.SortBy := by
  unfold processFlags; split <;> rfl

@[simp] theorem processFlags_DirFilePaths (s : Flags) :
    (processFlags s).DirFilePaths = s.DirFilePaths := by
  unfold processFlags; split <;> rfl

@[simp] theorem processFlags_FileListQueueSize (s : Flags) :
    (processFlags s).FileListQueueSize = s.FileListQueueSize := by
  unfold processFlags; split <;> rfl

@[simp] theorem processFlags_FileReadContentJobQueueSize (s : Flags) :
    (processFlags s).FileReadContentJobQueueSize = s.FileReadContentJobQueueSize := by
  unfold processFlags; split <;> rfl

@[simp] theorem processFlags_FileSummaryJobQueueSize (s : Flags) :
    (processFlags s).FileSummaryJobQueueSize = s.FileSummaryJobQueueSize := by
  unfold processFlags; split <;> rfl

@[simp] theorem processFlags_LanguageFeatures (s : Flags) :
    (processFlags s).LanguageFeatures = s.LanguageFeatures := by
  unfold processFlags; split <;> rfl

@[simp] theorem processFlags_ExtensionToLanguage (s : Flags) :
    (processFlags s).ExtensionToLanguage = s.ExtensionToLanguage := by
  unfold processFlags; split <;> rfl

/-- On a successfully loaded database, the setup of `Process` creates
exactly the three bounded channels of lines 217-219 with their
configured capacities and starts the walker on the first root path. -/
theorem processTrace_ok (s : Flags) (db : List (String × Language))
    (hL : s.Languages = false) :
    processTrace s (Except.ok db) = Except.ok
      [Event.queueCreated "fileListQueue" s.FileListQueueSize,
       Event.queueCreated "fileReadContentJobQueue" s.FileReadContentJobQueueSize,
       Event.queueCreated "fileSummaryJobQueue" s.FileSummaryJobQueueSize,
       Event.walkerStarted
         ((if s.DirFilePaths.isEmpty then s.DirFilePaths ++ ["."]
           else s.DirFilePaths).headD ""),
       Event.reportProduced] := by
  rw [processTrace, hL]
  simp only [Bool.false_eq_true, if_false]
  by_cases hD : s.DirFilePaths.isEmpty <;> simp [hD]

theorem tokens_buildFeature_false (v : Language) :
    (buildFeature false v).Tokens =
      v.ComplexityChecks.map (fun tok => TrieEntry.ins T_COMPLEXITY tok)
        ++ v.LineComment.map (fun tok => TrieEntry.ins T_SLCOMMENT tok)
        ++ v.MultiLine.map (fun p => TrieEntry.insClose T_MLCOMMENT p.1 p.2)
        ++ v.Quotes.map (fun p => TrieEntry.insClose T_STRING p.1 p.2) := by
  simp [buildFeature, foldl_insert_eq, foldl_insertClose_eq]

theorem tokens_buildFeature_true (v : Language) :
    (buildFeature true v).Tokens =
      v.LineComment.map (fun tok => TrieEntry.ins T_SLCOMMENT tok)
        ++ v.MultiLine.map (fun p => TrieEntry.insClose T_MLCOMMENT p.1 p.2)
        ++ v.Quotes.map (fun p => TrieEntry.insClose T_STRING p.1 p.2) := by
  simp [buildFeature, foldl_insert_eq, foldl_insertClose_eq, foldl_id]

theorem extFold_eq (name : String) (exts : List String) (m : String → Option String)
    (e : String) :
    (exts.foldl (fun m ext => insertExt m name ext) m) e =
      if e ∈ exts then some name else m e := by
  induction exts generalizing m with
  | nil => simp
  | cons x xs ih =>
    simp only [List.foldl_cons, ih, insertExt, List.mem_cons]
    by_cases hx : e ∈ xs
    · simp [hx]
    · by_cases hex : e = x
      · simp [hx, hex]
      · simp [hx, hex]

/-- A successful lookup in the extension table resolves either to some
language of the database that declares the extension, or to a
pre-existing entry when no language in the database declares it. -/
theorem buildExtMap_some (db : List (String × Language)) :
    ∀ (m : String → Option String) (e n : String),
      buildExtMap db m e = some n →
        (∃ L, (n, L) ∈ db ∧ e ∈ L.Extensions) ∨
          ((∀ p ∈ db, e ∉ p.2.Extensions) ∧ m e = some n) := by
  induction db with
  | nil => intro m e n h; exact Or.inr ⟨by simp, h⟩
  | cons q rest ih =>
    intro m e n h
    obtain ⟨name, value⟩ := q
    rw [buildExtMap] at h
    rcases ih _ _ _ h with hmem | ⟨hnone, hcarry⟩
    · obtain ⟨L, hL, he⟩ := hmem
      exact Or.inl ⟨L, List.mem_cons_of_mem _ hL, he⟩
    · rw [extFold_eq] at hcarry
      by_cases he : e ∈ value.Extensions
      · rw [if_pos he] at hcarry
        have : n = name := (Option.some.injEq _ _).mp hcarry.symm
        exact Or.inl ⟨value, by simp [this], he⟩
      · rw [if_neg he] at hcarry
        refine Or.inr ⟨?_, hcarry⟩
        intro p hp
        rcases List.mem_cons.mp hp with hhead | htail
        · rw [hhead]; exact he
        · exact hnone p htail

/-- A lookup in the extension table fails exactly when no language of
the database declares the extension and no pre-existing entry does. -/
theorem buildExtMap_none_iff (db : List (String × Language)) :
    ∀ (m : String → Option String) (e : String),
      buildExtMap db m e = none ↔ (∀ p ∈ db, e ∉ p.2.Extensions) ∧ m e = none := by
  induction db with
  | nil => intro m e; simp [buildExtMap]
  | cons q rest ih =>
    intro m e
    obtain ⟨name, value⟩ := q
    rw [buildExtMap, ih, extFold_eq]
    by_cases he : e ∈ value.Extensions
    · simp [he, List.forall_mem_cons]
    · simp [he, List.forall_mem_cons]

theorem buildFeatures_isSome_mono (C : Bool) (db : List (String × Language)) :
    ∀ (m : String → Option LanguageFeature) (n : String),
      (m n).isSome = true → ((buildFeatures C db m) n).isSome = true := by
  induction db with
  | nil => intro m n h; exact h
  | cons q rest ih =>
    intro m n h
    obtain ⟨name, value⟩ := q
    rw [buildFeatures]
    apply ih
    by_cases hn : n = name <;> simp [hn, h]

/-- Every language name of the database ends up as a key of the
compiled `LanguageFeatures` table. -/
theorem buildFeatures_isSome_of_mem (C : Bool) (db : List (String × Language)) :
    ∀ (m : String → Option LanguageFeature) (n : String),
      (∃ L, (n, L) ∈ db) → ((buildFeatures C db m) n).isSome = true := by
  induction db with
  | nil =>
    intro m n h
    obtain ⟨L, hL⟩ := h
    simp at hL
  | cons q rest ih =>
    intro m n h
    obtain ⟨L, hL⟩ := h
    obtain ⟨name, value⟩ := q
    rw [buildFeatures]
    rcases List.mem_cons.mp hL with hhead | htail
    · apply buildFeatures_isSome_mono
      have hn : n = name := congrArg Prod.fst hhead
      simp [hn]
    · exact ih _ _ ⟨L, htail⟩

/-! ## Claim theorems -/

/-- Claim C1, counterexample: for the language `exLang1` with the single
complexity token byte 105, when the `Complexity` flag is `true`
(complexity accounting disabled) the token is NOT inserted into the
combined dispatch automaton `tokenTrie`, and when the flag is `false`
(accounting enabled) it IS inserted — the opposite of what the claim
states for both sides of the toggle. -/
theorem c1_tokenTrie_cex :
    TrieEntry.ins T_COMPLEXITY [105] ∉ (buildFeature true exLang1).Tokens ∧
    TrieEntry.ins T_COMPLEXITY [105] ∈ (buildFeature false exLang1).Tokens := by
  decide

/-- Claim C1 (corrected): for every language definition, complexity
tokens are inserted into the combined dispatch automaton `tokenTrie`
exactly when complexity accounting is enabled (`Complexity = false`);
when accounting is disabled (`Complexity = true`) no complexity-tagged
token is inserted into `tokenTrie`; in both settings every complexity
token is inserted into the dedicated complexity automaton. -/
theorem c1_tokenTrie_amended (v : Language) :
    (∀ tok ∈ v.ComplexityChecks,
        TrieEntry.ins T_COMPLEXITY tok ∈ (buildFeature false v).Tokens) ∧
    (∀ tok, TrieEntry.ins T_COMPLEXITY tok ∉ (buildFeature true v).Tokens) ∧
    (∀ (C : Bool), ∀ tok ∈ v.ComplexityChecks,
        TrieEntry.ins T_COMPLEXITY tok ∈ (buildFeature C v).Complexity) := by
  refine ⟨?_, ?_, ?_⟩
  · intro tok htok
    rw [tokens_buildFeature_false]
    exact List.mem_append_left _ (List.mem_append_left _
      (List.mem_append_left _ (List.mem_map.mpr ⟨tok, htok, rfl⟩)))
  · intro tok
    rw [tokens_buildFeature_true]
    simp [T_COMPLEXITY, T_SLCOMMENT]
  · intro C tok htok
    rw [Complexity_buildFeature]
    exact List.mem_map.mpr ⟨tok, htok, rfl⟩

/-- Claim C1, witness at the concrete language `exLang1`. -/
theorem c1_tokenTrie_witness :
    TrieEntry.ins T_COMPLEXITY [105] ∈ (buildFeature false exLang1).Tokens ∧
    TrieEntry.ins T_COMPLEXITY [105] ∉ (buildFeature true exLang1).Tokens ∧
    TrieEntry.ins T_COMPLEXITY [105] ∈ (buildFeature false exLang1).Complexity :=
  ⟨(c1_tokenTrie_amended exLang1).1 [105] (by decide),
   (c1_tokenTrie_amended exLang1).2.1 [105],
   (c1_tokenTrie_amended exLang1).2.2 false [105] (by decide)⟩

/-- Claim C2, counterexample: for `exLang1` (one complexity token, no
other tokens) with the `Complexity` flag set (accounting disabled),
`ProcessMask` is `0` while the OR of the four category masks is `105`,
so `ProcessMask` is not the OR of all four category masks for every
setting of the toggle. -/
theorem c2_processMask_cex :
    (buildFeature true exLang1).ProcessMask ≠
      (buildFeature true exLang1).ComplexityCheckMask |||
      (buildFeature true exLang1).SingleLineCommentMask |||
      (buildFeature true exLang1).MultiLineCommentMask |||
      (buildFeature true exLang1).StringCheckMask := by
  decide

/-- Claim C2 (corrected): after `ProcessConstants`, `ProcessMask`
equals the OR of the single-line-comment, multi-line-comment and
string masks, OR-ed additionally with the complexity mask exactly when
the `Complexity` flag is `false` (complexity accounting enabled); it
equals the OR of all four category masks only in that case. -/
theorem c2_processMask_amended (C : Bool) (v : Language) :
    (buildFeature C v).ProcessMask =
      if C then
        (buildFeature C v).SingleLineCommentMask |||
        (buildFeature C v).MultiLineCommentMask |||
        (buildFeature C v).StringCheckMask
      else
        (buildFeature C v).ComplexityCheckMask |||
        (buildFeature C v).SingleLineCommentMask |||
        (buildFeature C v).MultiLineCommentMask |||
        (buildFeature C v).StringCheckMask := by
  cases C <;> simp [buildFeature]

/-- Claim C3, counterexample: with the configured root paths
`["a", "b"]`, the setup of `Process` starts the directory walker only
on `"a"` (`DirFilePaths[0]`, line 221); no walker is started on `"b"`,
so not every element of a non-empty `DirFilePaths` contributes files. -/
theorem c3_walker_cex :
    "b" ∈ ({ defFlags with DirFilePaths := ["a", "b"] } : Flags).DirFilePaths ∧
    processTrace { defFlags with DirFilePaths := ["a", "b"] } (Except.ok []) =
      Except.ok
        [Event.queueCreated "fileListQueue" 1,
         Event.queueCreated "fileReadContentJobQueue" 4,
         Event.queueCreated "fileSummaryJobQueue" 7,
         Event.walkerStarted "a", Event.reportProduced] ∧
    Event.walkerStarted "b" ∉
      [Event.queueCreated "fileListQueue" 1,
       Event.queueCreated "fileReadContentJobQueue" 4,
       Event.queueCreated "fileSummaryJobQueue" 7,
       Event.walkerStarted "a", Event.reportProduced] :=
  ⟨by decide, rfl, by decide⟩

/-- Claim C3 (corrected): for every non-empty configured `DirFilePaths`
(with the `Languages` flag clear), `Process` starts exactly one
directory walker, over the FIRST element of the list only; the
remaining root paths contribute nothing. -/
theorem c3_walker_amended (s : Flags) (db : List (String × Language))
    (hL : s.Languages = false) (hD : s.DirFilePaths ≠ []) :
    ∀ evs, processTrace s (Except.ok db) = Except.ok evs →
      ∀ p, Event.walkerStarted p ∈ evs ↔ p = s.DirFilePaths.headD "" := by
  intro evs heq p
  rw [processTrace_ok s db hL] at heq
  cases heq
  cases hcons : s.DirFilePaths with
  | nil => exact absurd hcons hD
  | cons a as => simp [hcons]

/-- Claim C3, witness: at root paths `["a", "b"]` the walker event for
the first root `"a"` is present in the setup trace. -/
theorem c3_walker_witness :
    Event.walkerStarted "a" ∈
      [Event.queueCreated "fileListQueue" 1,
       Event.queueCreated "fileReadContentJobQueue" 4,
       Event.queueCreated "fileSummaryJobQueue" 7,
       Event.walkerStarted "a", Event.reportProduced] :=
  (c3_walker_amended { defFlags with DirFilePaths := ["a", "b"] } [] rfl (by decide)
    _ rfl "a").mpr (by decide)

/-- Claim C4 (confirmed): if the embedded language table is malformed
(the base64 payload fails to decode or the JSON fails to unmarshal,
i.e. `loadDatabase` panics), `Process` aborts with that panic: its
trace is the error itself, so no queue-creation, walker-start or
report event ever occurs and no per-file processing happens. -/
theorem c4_table_load_abort (s : Flags) (p : Except String (List Nat))
    (u : List Nat → Except String (List (String × Language))) (e : String)
    (h : loadDatabase p u = Except.error e) :
    processTrace s (loadDatabase p u) = Except.error e ∧
    ∀ evs, processTrace s (loadDatabase p u) ≠ Except.ok evs := by
  have herr : processTrace s (Except.error e) = Except.error e := by
    rw [processTrace]
    cases hL : s.Languages <;> simp [hL]
  rw [h]
  refine ⟨herr, fun evs hok => ?_⟩
  rw [herr] at hok
  exact Except.noConfusion hok

/-- Claim C4, witness: a failed base64 decode aborts the run with the
panic message and produces no events. -/
theorem c4_table_load_abort_witness :
    processTrace defFlags
      (loadDatabase (Except.error "failed to base64 decode languages")
        (fun _ => Except.ok [])) =
      Except.error "failed to base64 decode languages" :=
  (c4_table_load_abort defFlags (Except.error "failed to base64 decode languages")
    (fun _ => Except.ok []) "failed to base64 decode languages" rfl).1

/-- Claim C5, counterexample: for the degenerate language `exLang0`
whose complexity token starts with a NUL byte, the complexity mask is
`0`; the scan byte `0` satisfies `0 &&& mask = 0` and yet IS the first
byte of a token of the category, so the claim's consequent fails as
stated. -/
theorem c5_mask_cex :
    ¬ (∀ b : Nat, b &&& (buildFeature false exLang0).ComplexityCheckMask = 0 →
        ∀ tok ∈ exLang0.ComplexityChecks, firstByte tok ≠ b) := by
  intro h
  exact h 0 (by decide) [0] (by decide) rfl

/-- Claim C5 (corrected): for every language definition, category and
token, every bit of the token's first byte is set in that category's
mask; consequently any NONZERO scan byte whose AND with the category
mask is zero cannot be the first byte of any token of that category
(the byte 0 must be excepted: a token whose first byte is 0 sets no
mask bit). -/
theorem c5_mask_amended (C : Bool) (v : Language) :
    (∀ tok ∈ v.ComplexityChecks,
        firstByte tok &&& (buildFeature C v).ComplexityCheckMask = firstByte tok) ∧
    (∀ tok ∈ v.LineComment,
        firstByte tok &&& (buildFeature C v).SingleLineCommentMask = firstByte tok) ∧
    (∀ p ∈ v.MultiLine,
        firstByte p.1 &&& (buildFeature C v).MultiLineCommentMask = firstByte p.1) ∧
    (∀ p ∈ v.Quotes,
        firstByte p.1 &&& (buildFeature C v).StringCheckMask = firstByte p.1) ∧
    (∀ b : Nat, b ≠ 0 → b &&& (buildFeature C v).ComplexityCheckMask = 0 →
        ∀ tok ∈ v.ComplexityChecks, firstByte tok ≠ b) ∧
    (∀ b : Nat, b ≠ 0 → b &&& (buildFeature C v).SingleLineCommentMask = 0 →
        ∀ tok ∈ v.LineComment, firstByte tok ≠ b) ∧
    (∀ b : Nat, b ≠ 0 → b &&& (buildFeature C v).MultiLineCommentMask = 0 →
        ∀ p ∈ v.MultiLine, firstByte p.1 ≠ b) ∧
    (∀ b : Nat, b ≠ 0 → b &&& (buildFeature C v).StringCheckMask = 0 →
        ∀ p ∈ v.Quotes, firstByte p.1 ≠ b) := by
  have h1 : ∀ tok ∈ v.ComplexityChecks,
      firstByte tok &&& (buildFeature C v).ComplexityCheckMask = firstByte tok := by
    intro tok htok
    rw [ComplexityCheckMask_eq]
    exact mem_foldl_or firstByte _ 0 tok htok
  have h2 : ∀ tok ∈ v.LineComment,
      firstByte tok &&& (buildFeature C v).SingleLineCommentMask = firstByte tok := by
    intro tok htok
    rw [SingleLineCommentMask_eq]
    exact mem_foldl_or firstByte _ 0 tok htok
  have h3 : ∀ p ∈ v.MultiLine,
      firstByte p.1 &&& (buildFeature C v).MultiLineCommentMask = firstByte p.1 := by
    intro p hp
    rw [MultiLineCommentMask_eq]
    exact mem_foldl_or (fun q => firstByte q.1) _ 0 p hp
  have h4 : ∀ p ∈ v.Quotes,
      firstByte p.1 &&& (buildFeature C v).StringCheckMask = firstByte p.1 := by
    intro p hp
    rw [StringCheckMask_eq]
    exact mem_foldl_or (fun q => firstByte q.1) _ 0 p hp
  refine ⟨h1, h2, h3, h4, ?_, ?_, ?_, ?_⟩
  · intro b hb h0 tok htok heq
    have habs := h1 tok htok
    rw [heq, h0] at habs
    exact hb habs.symm
  · intro b hb h0 tok htok heq
    have habs := h2 tok htok
    rw [heq, h0] at habs
    exact hb habs.symm
  · intro b hb h0 p hp heq
    have habs := h3 p hp
    rw [heq, h0] at habs
    exact hb habs.symm
  · intro b hb h0 p hp heq
    have habs := h4 p hp
    rw [heq, h0] at habs
    exact hb habs.symm

/-- Claim C5, witness at `exLang1`: the first byte 105 is absorbed by
the complexity mask, and the nonzero byte 2, disjoint from the mask,
is rejected as a possible first byte. -/
theorem c5_mask_witness :
    firstByte [105] &&& (buildFeature false exLang1).ComplexityCheckMask = firstByte [105] ∧
    firstByte [105] ≠ 2 :=
  ⟨(c5_mask_amended false exLang1).1 [105] (by decide),
   (c5_mask_amended false exLang1).2.2.2.2.1 2 (by decide) (by decide) [105] (by decide)⟩

/-- Claim C6 (confirmed): starting from the empty package tables, after
`ProcessConstants` the extension table is a many-to-one map (each
extension resolves to exactly one language name), and every language
name it resolves to is a key of the compiled `LanguageFeatures` table,
for either setting of the `Complexity` flag. -/
theorem c6_extension_resolution (C : Bool) (db : List (String × Language)) :
    (∀ e n1 n2, buildExtMap db emptyStrMap e = some n1 →
        buildExtMap db emptyStrMap e = some n2 → n1 = n2) ∧
    (∀ e n, buildExtMap db emptyStrMap e = some n →
        ((buildFeatures C db emptyFeatMap) n).isSome = true) := by
  constructor
  · intro e n1 n2 hn1 hn2
    rw [hn1] at hn2
    exact (Option.some.injEq _ _).mp hn2
  · intro e n h
    rcases buildExtMap_some db emptyStrMap e n h with ⟨L, hmem, _⟩ | ⟨_, hcarry⟩
    · exact buildFeatures_isSome_of_mem C db emptyFeatMap n ⟨L, hmem⟩
    · exact absurd hcarry (by simp [emptyStrMap])

/-- Claim C6, witness: with a one-language database the resolved name
`"Go"` is a key of the compiled feature table. -/
theorem c6_extension_resolution_witness :
    ((buildFeatures false [("Go", exLangGo)] emptyFeatMap) "Go").isSome = true :=
  (c6_extension_resolution false [("Go", exLangGo)]).2 "go" "Go" rfl

/-- Claim C7, counterexample: when the languages `"A"` and `"B"` both
declare the extension `"x"`, two runs of the first `ProcessConstants`
loop over the same table in two different (Go map) iteration orders
resolve `"x"` to different languages (`"B"` vs `"A"`): extension
resolution is not a deterministic two-run property as claimed. -/
theorem c7_determinism_cex :
    ¬ (∀ db1 db2 : List (String × Language), db1.Perm db2 →
        ∀ e, buildExtMap db1 emptyStrMap e = buildExtMap db2 emptyStrMap e) := by
  intro h
  have hperm : List.Perm [("A", exLangX), ("B", exLangX)] [("B", exLangX), ("A", exLangX)] :=
    List.Perm.swap ("B", exLangX) ("A", exLangX) []
  exact absurd (h _ _ hperm "x") (by decide)

/-- Claim C7 (corrected): two runs of `ProcessConstants` over the same
table (any two iteration orders of the same `map[string]Language`)
produce the same extension resolution PROVIDED no extension is
declared by two languages with different names; when two languages
share an extension the outcome depends on the iteration order (the
last-iterated language wins). -/
theorem c7_determinism_amended (db1 db2 : List (String × Language))
    (hperm : db1.Perm db2)
    (huniq : ∀ (e n1 n2 : String) (L1 L2 : Language),
        (n1, L1) ∈ db1 → (n2, L2) ∈ db1 →
        e ∈ L1.Extensions → e ∈ L2.Extensions → n1 = n2)
    (e : String) :
    buildExtMap db1 emptyStrMap e = buildExtMap db2 emptyStrMap e := by
  cases h1 : buildExtMap db1 emptyStrMap e with
  | none =>
    rw [buildExtMap_none_iff] at h1
    have h2 : buildExtMap db2 emptyStrMap e = none := by
      rw [buildExtMap_none_iff]
      exact ⟨fun p hp => h1.1 p (hperm.mem_iff.mpr hp), h1.2⟩
    rw [h2]
  | some n =>
    rcases buildExtMap_some db1 emptyStrMap e n h1 with ⟨L, hmem, he⟩ | ⟨_, hcarry⟩
    · cases h2 : buildExtMap db2 emptyStrMap e with
      | none =>
        rw [buildExtMap_none_iff] at h2
        exact absurd he (h2.1 (n, L) (hperm.mem_iff.mp hmem))
      | some n2 =>
        rcases buildExtMap_some db2 emptyStrMap e n2 h2 with ⟨L2, hmem2, he2⟩ | ⟨_, hcarry2⟩
        · rw [huniq e n n2 L L2 hmem (hperm.mem_iff.mpr hmem2) he he2]
        · exact absurd hcarry2 (by simp [emptyStrMap])
    · exact absurd hcarry (by simp [emptyStrMap])

/-- Claim C7, witness: a two-language table with disjoint extensions
resolves `"go"` identically under two different iteration orders. -/
theorem c7_determinism_witness :
    buildExtMap [("Go", exLangGo), ("Rust", exLangRs)] emptyStrMap "go" =
      buildExtMap [("Rust", exLangRs), ("Go", exLangGo)] emptyStrMap "go" :=
  c7_determinism_amended _ _ (List.Perm.swap ("Rust", exLangRs) ("Go", exLangGo) [])
    (by
      intro e n1 n2 L1 L2 h1 h2 he1 he2
      rcases List.mem_cons.mp h1 with h1 | h1 <;>
        rcases List.mem_cons.mp h2 with h2 | h2 <;>
        simp_all [exLangGo, exLangRs])
    "go"

/-- Claim C8, counterexample: with all five declared queue-size knobs
set to distinct values, the middle queue created by `Process` has
capacity `FileReadContentJobQueueSize` (= 4), which is none of the
four stage-named knobs `FileListQueueSize`, `FileReadJobQueueSize`,
`FileProcessJobQueueSize`, `FileSummaryJobQueueSize` (= 1, 2, 5, 7):
the queue capacities are not drawn from four stage knobs. -/
theorem c8_queues_cex :
    ¬ (∀ evs, processTrace defFlags (Except.ok []) = Except.ok evs →
        ∀ nm cap, Event.queueCreated nm cap ∈ evs → cap ∈ fourStageKnobs defFlags) := by
  intro h
  exact absurd
    (h [Event.queueCreated "fileListQueue" 1,
        Event.queueCreated "fileReadContentJobQueue" 4,
        Event.queueCreated "fileSummaryJobQueue" 7,
        Event.walkerStarted "p", Event.reportProduced]
      rfl "fileReadContentJobQueue" 4 (by decide))
    (by decide)

/-- Claim C8 (corrected): `Process` joins its four stages by THREE
bounded queues, one per stage boundary; their capacities are the three
dedicated, independently-settable knobs `FileListQueueSize`,
`FileReadContentJobQueueSize` and `FileSummaryJobQueueSize`, while the
declared knobs `FileReadJobQueueSize` and `FileProcessJobQueueSize` do
not set the capacity of any queue. -/
theorem c8_queues_amended (s : Flags) (db : List (String × Language))
    (hL : s.Languages = false) :
    processTrace s (Except.ok db) = Except.ok
      [Event.queueCreated "fileListQueue" s.FileListQueueSize,
       Event.queueCreated "fileReadContentJobQueue" s.FileReadContentJobQueueSize,
       Event.queueCreated "fileSummaryJobQueue" s.FileSummaryJobQueueSize,
       Event.walkerStarted
         ((if s.DirFilePaths.isEmpty then s.DirFilePaths ++ ["."]
           else s.DirFilePaths).headD ""),
       Event.reportProduced] ∧
    ∀ k j, processTrace
        { s with FileReadJobQueueSize := k, FileProcessJobQueueSize := j }
        (Except.ok db) =
      processTrace s (Except.ok db) := by
  refine ⟨processTrace_ok s db hL, fun k j => ?_⟩
  rw [processTrace_ok s db hL,
    processTrace_ok { s with FileReadJobQueueSize := k, FileProcessJobQueueSize := j } db hL]

/-- Claim C8, witness at the sample configuration with all five size
knobs distinct. -/
theorem c8_queues_witness :
    processTrace defFlags (Except.ok []) = Except.ok
      [Event.queueCreated "fileListQueue" 1,
       Event.queueCreated "fileReadContentJobQueue" 4,
       Event.queueCreated "fileSummaryJobQueue" 7,
       Event.walkerStarted "p", Event.reportProduced] :=
  (c8_queues_amended defFlags [] rfl).1

/-- Claim C9 (confirmed): `processFlags` changes only the `Complexity`
flag — the new value is `Complexity && !More`, i.e. it is cleared
exactly when both `More` and `Complexity` were set — and leaves every
other package flag and both compiled tables unchanged; and since
`Process` runs `ProcessConstants` before `processFlags`, the compiled
tables reflect the value `Complexity` had BEFORE this adjustment. -/
theorem c9_processFlags_frame (s : Flags) (db : List (String × Language)) :
    (processFlags s).Complexity = (s.Complexity && !s.More) ∧
    (processFlags s).Files = s.Files ∧
    (processFlags s).Languages = s.Languages ∧
    (processFlags s).Verbose = s.Verbose ∧
    (processFlags s).Debug = s.Debug ∧
    (processFlags s).Trace = s.Trace ∧
    (processFlags s).Duplicates = s.Duplicates ∧
    (processFlags s).More = s.More ∧
    (processFlags s).Cocomo = s.Cocomo ∧
    (processFlags s).DisableCheckBinary = s.DisableCheckBinary ∧
    (processFlags s).SortBy = s.SortBy ∧
    (processFlags s).Exclude = s.Exclude ∧
    (processFlags s).Format = s.Format ∧
    (processFlags s).FileOutput = s.FileOutput ∧
    (processFlags s).PathBlacklist = s.PathBlacklist ∧
    (processFlags s).FileListQueueSize = s.FileListQueueSize ∧
    (processFlags s).FileReadJobQueueSize = s.FileReadJobQueueSize ∧
    (processFlags s).FileReadJobWorkers = s.FileReadJobWorkers ∧
    (processFlags s).FileReadContentJobQueueSize = s.FileReadContentJobQueueSize ∧
    (processFlags s).FileProcessJobQueueSize = s.FileProcessJobQueueSize ∧
    (processFlags s).FileProcessJobWorkers = s.FileProcessJobWorkers ∧
    (processFlags s).FileSummaryJobQueueSize = s.FileSummaryJobQueueSize ∧
    (processFlags s).WhiteListExtensions = s.WhiteListExtensions ∧
    (processFlags s).AverageWage = s.AverageWage ∧
    (processFlags s).GcFileCount = s.GcFileCount ∧
    (processFlags s).gcPercent = s.gcPercent ∧
    (processFlags s).DirFilePaths = s.DirFilePaths ∧
    (processFlags s).ExtensionToLanguage = s.ExtensionToLanguage ∧
    (processFlags s).LanguageFeatures = s.LanguageFeatures ∧
    (processFlags (processConstantsState s db)).LanguageFeatures =
      buildFeatures s.Complexity db s.LanguageFeatures ∧
    (processFlags (processConstantsState s db)).ExtensionToLanguage =
      buildExtMap db s.ExtensionToLanguage ∧
    (processFlags (processConstantsState s db)).Complexity =
      (s.Complexity && !s.More) := by
  unfold processFlags
  cases hM : s.More <;> cases hC : s.Complexity <;>
    simp [hM, hC, processConstantsState]

/-- Claim C10 (confirmed): when `DirFilePaths` is empty and the
`Languages` listing flag is clear, `Process` defaults the root-path
list to `["."]` and starts the walker on the current directory `"."`
rather than walking nothing or failing. -/
theorem c10_default_path (s : Flags) (db : List (String × Language))
    (hL : s.Languages = false) (hD : s.DirFilePaths = []) :
    processTrace s (Except.ok db) = Except.ok
      [Event.queueCreated "fileListQueue" s.FileListQueueSize,
       Event.queueCreated "fileReadContentJobQueue" s.FileReadContentJobQueueSize,
       Event.queueCreated "fileSummaryJobQueue" s.FileSummaryJobQueueSize,
       Event.walkerStarted ".",
       Event.reportProduced] := by
  rw [processTrace_ok s db hL, hD]
  rfl

/-- Claim C10, witness: the sample configuration with no root paths
walks `"."`. -/
theorem c10_default_path_witness :
    processTrace { defFlags with DirFilePaths := [] } (Except.ok []) = Except.ok
      [Event.queueCreated "fileListQueue" 1,
       Event.queueCreated "fileReadContentJobQueue" 4,
       Event.queueCreated "fileSummaryJobQueue" 7,
       Event.walkerStarted ".", Event.reportProduced] :=
  c10_default_path { defFlags with DirFilePaths := [] } [] rfl rfl

end Scc

